import Mathlib

/-!
Shallow embedding of the ingestion core of the `kudwa-ai-engine` repository
(`app/ingestion.py`, `app/crud.py`, `app/models.py`) and proofs about it.

Conventions of the embedding:
* Python `str` is Lean `String`; character-level work is done on `String.data`.
* Python exceptions are values of `PyErr`; a function that can raise returns
  `Except PyErr α`.  Evaluation order of the Python source is preserved so
  that *which* exception is raised first is modelled faithfully.
* Python `float` amounts are modelled as `Rat`; no claim in scope depends on
  binary floating-point rounding.
* `datetime.date` is `PyDate` (a year/month/day triple validated on
  construction exactly as CPython's `date()` constructor validates).
-/

instance {ε α : Type} [DecidableEq ε] [DecidableEq α] : DecidableEq (Except ε α) := fun x y =>
  match x, y with
  | .ok a, .ok b =>
    if h : a = b then .isTrue (by rw [h]) else .isFalse (fun hc => h (Except.ok.inj hc))
  | .error a, .error b =>
    if h : a = b then .isTrue (by rw [h]) else .isFalse (fun hc => h (Except.error.inj hc))
  | .ok _, .error _ => .isFalse (fun hc => Except.noConfusion hc)
  | .error _, .ok _ => .isFalse (fun hc => Except.noConfusion hc)

/-- Python exception values, as raised by the embedded code.
`valueError` covers `ValueError`, `keyError` a `KeyError` with an `Int` key
(the only dict in scope is keyed by ints), `indexError` an `IndexError`,
`integrityError` SQLAlchemy's `IntegrityError`. -/
inductive PyErr where
  | valueError (msg : String)
  | keyError (k : Int)
  | indexError (msg : String)
  | integrityError (msg : String)
deriving DecidableEq, Repr

/-- A proleptic-Gregorian calendar date, the embedding of `datetime.date`. -/
structure PyDate where
  year : Nat
  month : Nat
  day : Nat
deriving DecidableEq, Repr

/-- Lexicographic order on dates, the embedding of `date <= date`. -/
def PyDate.le (a b : PyDate) : Prop :=
  a.year < b.year ∨ (a.year = b.year ∧
    (a.month < b.month ∨ (a.month = b.month ∧ a.day ≤ b.day)))

instance (a b : PyDate) : Decidable (a.le b) := by
  unfold PyDate.le; infer_instance

/-- Gregorian leap-year rule, as used by `datetime.date` validation. -/
def isLeapYear (y : Nat) : Bool :=
  y % 4 == 0 && (y % 100 != 0 || y % 400 == 0)

/-- Number of days of month `m` of year `y` (Gregorian). -/
def daysInMonth (y m : Nat) : Nat :=
  if m = 2 then (if isLeapYear y then 29 else 28)
  else if m = 4 ∨ m = 6 ∨ m = 9 ∨ m = 11 then 30
  else 31

/-- Embedding of CPython's `datetime.date(y, m, d)` constructor: validates
`MINYEAR <= y <= MAXYEAR`, `1 <= m <= 12`, `1 <= d <= days_in_month`,
raising `ValueError` otherwise. -/
def pyDate (y : Int) (m d : Nat) : Except PyErr PyDate :=
  if y < 1 ∨ 9999 < y then .error (.valueError ("year is out of range"))
  else if m < 1 ∨ 12 < m then .error (.valueError ("month must be in 1..12"))
  else if d < 1 ∨ daysInMonth y.toNat m < d then
    .error (.valueError ("day is out of range for month"))
  else .ok ⟨y.toNat, m, d⟩

/-- Value of a non-empty all-digit character list, `none` otherwise. -/
def digitsVal (cs : List Char) : Option Nat :=
  if cs = [] then none
  else if cs.all Char.isDigit then
    some (cs.foldl (fun a c => a * 10 + (c.toNat - 48)) 0)
  else none

/-- Embedding of Python's `int(s)` for base 10: an optional single sign
followed by a non-empty run of decimal digits.  (CPython also tolerates
surrounding whitespace and interior underscores; no input in scope uses
either, so they are not modelled.)  Raises `ValueError` otherwise. -/
def pyIntCore (cs : List Char) : Option Int :=
  match cs with
  | [] => none
  | c :: rest =>
    if c = '-' then (digitsVal rest).map (fun n : Nat => -(n : Int))
    else if c = '+' then (digitsVal rest).map (fun n : Nat => (n : Int))
    else (digitsVal (c :: rest)).map (fun n : Nat => (n : Int))

def pyInt (cs : List Char) : Except PyErr Int :=
  match pyIntCore cs with
  | some v => .ok v
  | none => .error (.valueError ("invalid literal for int() with base 10: " ++ String.mk cs))

/-- Embedding of Python's `str.split(sep)` for a one-character separator:
every maximal run between separators, with empty runs kept
(`"".split("-") == [""]`). -/
def pySplit (sep : Char) : List Char → List (List Char)
  | [] => [[]]
  | c :: rest =>
    match pySplit sep rest with
    | [] => [[]]
    | cur :: parts =>
      if c = sep then [] :: cur :: parts else (c :: cur) :: parts

/-- Embedding of Python's `sub in s` substring test. -/
def listContainsSub (pat : List Char) : List Char → Bool
  | [] => pat.isEmpty
  | c :: rest => pat.isPrefixOf (c :: rest) || listContainsSub pat rest

/-- The substring test `pat in s` lifted to `String`s. -/
def strContains (s pat : String) : Bool :=
  listContainsSub pat.data s.data

/-- Embedding of Python's `str.lower()` (ASCII; the tokens and metric names
in scope are ASCII). -/
def pyLower (s : String) : String :=
  String.mk (s.data.map Char.toLower)

/-- Modelled from the spec: Python's `datetime.fromisoformat(...).date()` on
the date portion, restricted to the extended `YYYY-MM-DD` form (the spec's
"ISO-8601 date"); the shape is checked first
(`ValueError: Invalid isoformat string` otherwise), then the field values are
validated exactly as the `date()` constructor does. -/
def fromisoformatDate (cs : List Char) : Except PyErr PyDate :=
  match cs with
  | [y1, y2, y3, y4, '-', m1, m2, '-', d1, d2] =>
    if y1.isDigit ∧ y2.isDigit ∧ y3.isDigit ∧ y4.isDigit ∧
       m1.isDigit ∧ m2.isDigit ∧ d1.isDigit ∧ d2.isDigit then
      pyDate
        (((y1.toNat - 48) * 1000 + (y2.toNat - 48) * 100 +
          (y3.toNat - 48) * 10 + (y4.toNat - 48) : Nat) : Int)
        ((m1.toNat - 48) * 10 + (m2.toNat - 48))
        ((d1.toNat - 48) * 10 + (d2.toNat - 48))
    else .error (.valueError ("Invalid isoformat string: " ++ String.mk cs))
  | _ => .error (.valueError ("Invalid isoformat string: " ++ String.mk cs))

/-- Character-level worker for `_parse_date`:
`datetime.fromisoformat(s.split("T")[0]).date()` — everything before the
first `T` is parsed, the rest is discarded unseen. -/
def parseDateChars (cs : List Char) : Except PyErr PyDate :=
  fromisoformatDate (cs.takeWhile (fun c => c ≠ 'T'))

/-- Embedding of `_parse_date` (src/app/ingestion.py lines 10-12). -/
def _parse_date (s : String) : Except PyErr PyDate :=
  parseDateChars s.data

/-- Embedding of the `day` computation of the quarter branch of
`rootfi_period_to_dates` (src/app/ingestion.py lines 31-37): the last day of
`end_month` in year `y`. -/
def quarter_end_day (y : Int) (end_month : Nat) : Nat :=
  if end_month = 1 ∨ end_month = 3 ∨ end_month = 5 ∨ end_month = 7 ∨
     end_month = 8 ∨ end_month = 10 ∨ end_month = 12 then 31
  else if end_month = 2 then
    (if y % 4 = 0 ∧ (y % 100 ≠ 0 ∨ y % 400 = 0) then 29 else 28)
  else 30

/-- The quarter-to-months dict of `rootfi_period_to_dates`
(src/app/ingestion.py line 27), with the failing lookup (`KeyError`) made
explicit as `none`. -/
def quarterTable (q : Int) : Option (Nat × Nat) :=
  if q = 1 then some (1, 3)
  else if q = 2 then some (4, 6)
  else if q = 3 then some (7, 9)
  else if q = 4 then some (10, 12)
  else none

/-- The non-quarter branches of `rootfi_period_to_dates` (src/app/ingestion.py
lines 40-46): a string containing `/` is unpacked into exactly two halves and
both parsed as dates; any other string is parsed as a single day. -/
def rootfiPeriodFallback (chars : List Char) : Except PyErr (PyDate × PyDate) :=
  if listContainsSub ['/'] chars then
    match pySplit '/' chars with
    | [s, e] =>
      match parseDateChars s with
      | .error err => .error err
      | .ok a =>
        match parseDateChars e with
        | .error err => .error err
        | .ok b => .ok (a, b)
    | parts =>
      .error (.valueError (if parts.length < 2 then
        ("not enough values to unpack") else ("too many values to unpack")))
  else
    match parseDateChars chars with
    | .error err => .error err
    | .ok d => .ok (d, d)

/-- The quarter branch of `rootfi_period_to_dates` (src/app/ingestion.py
lines 24-39), entered when the string starts with `Q`.  Mirrors the source's
evaluation order: `period[1]` is read (IndexError on a bare `"Q"`), then
`period.split("-")[1]` (IndexError when there is no `-`), then `int(q)`
(ValueError on a non-digit), then the quarter table lookup (KeyError when the
digit is not 1..4), then `int(yr)` and the two `date()` constructions. -/
def rootfiQuarterCore (qc : Char) (yr : List Char) : Except PyErr (PyDate × PyDate) :=
  match pyInt [qc] with
  | .error err => .error err
  | .ok q =>
    match quarterTable q with
    | none => .error (.keyError q)
    | some months =>
      match pyInt yr with
      | .error err => .error err
      | .ok y =>
        match pyDate y months.1 1 with
        | .error err => .error err
        | .ok start =>
          match pyDate y months.2 (quarter_end_day y months.2) with
          | .error err => .error err
          | .ok endDate => .ok (start, endDate)

/-- The indexing steps of the quarter branch: `period[1]` then
`period.split("-")[1]`, each raising `IndexError` when absent, then the
work of `rootfiQuarterCore`. -/
def rootfiPeriodQuarter (chars : List Char) : Except PyErr (PyDate × PyDate) :=
  match chars with
  | [] => .error (.indexError ("string index out of range"))
  | [_] => .error (.indexError ("string index out of range"))
  | c0 :: qc :: rest2 =>
    match (pySplit '-' (c0 :: qc :: rest2)).drop 1 with
    | [] => .error (.indexError ("list index out of range"))
    | yr :: _ => rootfiQuarterCore qc yr

/-- Embedding of `rootfi_period_to_dates` (src/app/ingestion.py lines 15-46):
the quarter branch when the string starts with `Q`, the `/`-range or
single-day fallback otherwise. -/
def rootfi_period_to_dates (period : String) : Except PyErr (PyDate × PyDate) :=
  match period.data with
  | [] => rootfiPeriodFallback []
  | c :: rest =>
    if c = 'Q' then rootfiPeriodQuarter (c :: rest)
    else rootfiPeriodFallback (c :: rest)

/-- Embedding of the `FinancialRecord` row payload (src/app/models.py lines
6-18), minus the auto-assigned integer primary key `id`, which is carried by
the store model (`StoredRecord`) because the application never sets it. -/
structure FinancialRecord where
  dataset_id : String
  period_start : PyDate
  period_end : PyDate
  metric : String
  amount : Rat
  currency : String := "USD"
  category : Option String := none
  sub_category : Option String := none
  raw_source_id : Option String := none
deriving DecidableEq, Repr

/-- A raw JSON row as read by `_load_qb`: the fields are exactly the keys
the loader accesses.  `row["date"]` is a required key, every other access
goes through `row.get(...)`, hence the `Option`s.  A numeric JSON field is
carried as `Rat` (see the module conventions). -/
structure QbRow where
  date : String
  revenue : Option Rat := none
  expenses : Option Rat := none
  currency : Option String := none
  id : Option String := none
deriving DecidableEq, Repr

/-- A raw JSON row as read by `_load_rootfi`: the fields are exactly the
keys the loader accesses; `period`, `type` and `value` are required keys of
the source, the rest go through `row.get(...)`. -/
structure RootfiRow where
  period : String
  type : String
  value : Rat
  currency : Option String := none
  category : Option String := none
  sub_category : Option String := none
  uid : Option String := none
deriving DecidableEq, Repr

/-- Embedding of `_load_qb` (src/app/ingestion.py lines 49-79) after the
JSON file read: each row yields a `metric="revenue"` record then a
`metric="expense"` record, both dated at the row's single `date`; the first
malformed date aborts the whole batch, exactly as the uncaught exception
does in the source. -/
def _load_qb (ds_id : String) : List QbRow → Except PyErr (List FinancialRecord)
  | [] => .ok []
  | row :: rest =>
    match _parse_date row.date with
    | .error err => .error err
    | .ok start =>
      match _load_qb ds_id rest with
      | .error err => .error err
      | .ok recs =>
        .ok (
          { dataset_id := ds_id, period_start := start, period_end := start,
            metric := "revenue", amount := row.revenue.getD 0,
            currency := row.currency.getD ("USD"), raw_source_id := row.id } ::
          { dataset_id := ds_id, period_start := start, period_end := start,
            metric := "expense", amount := row.expenses.getD 0,
            currency := row.currency.getD ("USD"), raw_source_id := row.id } :: recs)

/-- Embedding of `_load_rootfi` (src/app/ingestion.py lines 82-103) after
the JSON file read: each row yields one record, with the period resolved by
`rootfi_period_to_dates` and the `type` lowercased into `metric`; the first
malformed period aborts the whole batch. -/
def _load_rootfi (ds_id : String) : List RootfiRow → Except PyErr (List FinancialRecord)
  | [] => .ok []
  | row :: rest =>
    match rootfi_period_to_dates row.period with
    | .error err => .error err
    | .ok (start, endDate) =>
      match _load_rootfi ds_id rest with
      | .error err => .error err
      | .ok recs =>
        .ok (
          { dataset_id := ds_id, period_start := start, period_end := endDate,
            metric := pyLower row.type, amount := row.value,
            currency := row.currency.getD ("USD"), category := row.category,
            sub_category := row.sub_category, raw_source_id := row.uid } :: recs)

/-- The two loaders `load_dataset` can dispatch to. -/
inductive AdapterRef where
  | qb
  | rootfi
deriving DecidableEq, Repr

/-- Embedding of the dispatch logic of `load_dataset` (src/app/ingestion.py
lines 106-115): the chosen loader call is abstracted to the reference of the
loader, the adapter bodies themselves being `_load_qb` and `_load_rootfi`
above.  `name` is `path.name`, the file's base name. -/
def select_adapter (name : String) : Except PyErr AdapterRef :=
  if strContains (pyLower name) "qb" then .ok .qb
  else if strContains (pyLower name) "rootfi" then .ok .rootfi
  else .error (.valueError ("Unsupported dataset format: " ++ name))

/-- One row of the `financialrecord` table: the auto-assigned primary key
plus the payload. -/
structure StoredRecord where
  id : Nat
  payload : FinancialRecord
deriving DecidableEq, Repr

/-- The SQLite store as declared by src/app/models.py and created by
src/app/db_init.py. -/
structure DB where
  rows : List StoredRecord
  next_id : Nat
deriving DecidableEq, Repr

def emptyDB : DB := ⟨[], 1⟩

/-- Embedding of one `session.add(rec); session.commit()` against the
schema declared in src/app/models.py: integer auto-increment primary key
`id`; `dataset_id` and `metric` carry non-unique indexes; **no** uniqueness
constraint is declared on any other column or column set.  An insert can
therefore violate a constraint only by reusing an existing primary key,
which the auto-increment id never does. -/
def insertRecord (db : DB) (r : FinancialRecord) : Except PyErr DB :=
  if (db.rows.map StoredRecord.id).contains db.next_id then
    .error (.integrityError ("UNIQUE constraint failed: financialrecord.id"))
  else .ok ⟨db.rows ++ [⟨db.next_id, r⟩], db.next_id + 1⟩

/-- Embedding of `add_records` (src/app/crud.py lines 13-22): insert each
record independently, count the successes, roll back and skip a record
whose insert raises `IntegrityError` (the only exception `insertRecord`
produces). -/
def add_records (db : DB) (records : List FinancialRecord) : DB × Nat :=
  records.foldl
    (fun st rec =>
      match insertRecord st.1 rec with
      | .ok db2 => (db2, st.2 + 1)
      | .error _ => (st.1, st.2))
    (db, 0)

/-! ### Concrete inputs used by the claim theorems -/

/-- The Adapter-A example row of the spec (section 8). -/
def c3Row : QbRow :=
  { date := "2024-01-01", revenue := some 100, expenses := some 40,
    id := some ("r1") }

/-- An Adapter-A row with every optional key absent. -/
def c3RowBare : QbRow := { date := "2024-01-01" }

/-- The Adapter-B example row of the spec (section 8). -/
def c8Row : RootfiRow :=
  { period := "Q1-2024", type := "Profit", value := 999, uid := some ("u1") }

/-- The canonical record the rootfi adapter produces from `c8Row`. -/
def c8Rec : FinancialRecord :=
  { dataset_id := "rootfi", period_start := ⟨2024, 1, 1⟩,
    period_end := ⟨2024, 3, 31⟩, metric := "profit", amount := 999,
    currency := "USD", category := none, sub_category := none,
    raw_source_id := some ("u1") }

/-- An Adapter-B row whose `type` field is the empty string. -/
def c6Row : RootfiRow := { period := "2024-01-01", type := "", value := 0 }

/-- An Adapter-B row whose range-form period is descending. -/
def c5Row : RootfiRow :=
  { period := "2024-03-01/2024-01-01", type := "profit", value := 1 }

/-- A representative canonical record, used to exercise `add_records`. -/
def sampleRecord : FinancialRecord :=
  { dataset_id := "ds", period_start := ⟨2024, 1, 1⟩, period_end := ⟨2024, 1, 1⟩,
    metric := "revenue", amount := 100, currency := "USD",
    raw_source_id := some ("r1") }

/-! ### Helper lemmas about the embedded primitives -/

lemma string_eq_of_data {s t : String} (h : s.data = t.data) : s = t := by
  cases s; cases t; exact congrArg String.mk h

lemma string_ne_of_data {s t : String} (h : s.data ≠ t.data) : s ≠ t :=
  fun e => h (congrArg String.data e)

lemma pySplit_ne_nil (sep : Char) (l : List Char) : pySplit sep l ≠ [] := by
  cases l with
  | nil => simp [pySplit]
  | cons c rest =>
    unfold pySplit
    cases pySplit sep rest with
    | nil => simp
    | cons cur parts => by_cases hc : c = sep <;> simp [hc]

lemma pySplit_cons_eq {sep : Char} {rest cur : List Char} {parts : List (List Char)}
    (c : Char) (h : pySplit sep rest = cur :: parts) :
    pySplit sep (c :: rest) =
      if c = sep then [] :: cur :: parts else (c :: cur) :: parts := by
  unfold pySplit
  rw [h]

lemma pySplit_of_not_mem {sep : Char} {l : List Char} (h : sep ∉ l) :
    pySplit sep l = [l] := by
  induction l with
  | nil => rfl
  | cons c rest ih =>
    simp only [List.mem_cons, not_or] at h
    rw [pySplit_cons_eq c (ih h.2), if_neg (fun hc => h.1 hc.symm)]

lemma pySplit_append {sep : Char} {l1 : List Char} (l2 : List Char) (h : sep ∉ l1) :
    pySplit sep (l1 ++ sep :: l2) = l1 :: pySplit sep l2 := by
  induction l1 with
  | nil =>
    obtain ⟨cur, parts, hp⟩ : ∃ cur parts, pySplit sep l2 = cur :: parts := by
      cases hpp : pySplit sep l2 with
      | nil => exact absurd hpp (pySplit_ne_nil sep l2)
      | cons a b => exact ⟨a, b, rfl⟩
    rw [List.nil_append, pySplit_cons_eq sep hp, if_pos rfl, hp]
  | cons c rest ih =>
    simp only [List.mem_cons, not_or] at h
    rw [List.cons_append, pySplit_cons_eq c (ih h.2), if_neg (fun hc => h.1 hc.symm)]

lemma listContainsSub_singleton (c : Char) (l : List Char) :
    listContainsSub [c] l = l.contains c := by
  induction l with
  | nil => rfl
  | cons x rest ih =>
    unfold listContainsSub
    rw [ih]
    by_cases hcx : c = x <;>
      simp [List.isPrefixOf, List.contains_cons, hcx, beq_iff_eq]

lemma digitsVal_isDigit {cs : List Char} {n : Nat} (h : digitsVal cs = some n) :
    ∀ c ∈ cs, c.isDigit := by
  unfold digitsVal at h
  split_ifs at h with h1 h2
  exact fun c hc => List.all_eq_true.mp h2 c hc

lemma digitsVal_ne_nil {cs : List Char} {n : Nat} (h : digitsVal cs = some n) :
    cs ≠ [] := by
  intro e
  rw [e] at h
  simp [digitsVal] at h

lemma pyIntCore_cons (c : Char) (rest : List Char) :
    pyIntCore (c :: rest) =
      if c = '-' then (digitsVal rest).map (fun n : Nat => -(n : Int))
      else if c = '+' then (digitsVal rest).map (fun n : Nat => (n : Int))
      else (digitsVal (c :: rest)).map (fun n : Nat => (n : Int)) := rfl

lemma pyInt_of_digitsVal {cs : List Char} {n : Nat} (h : digitsVal cs = some n) :
    pyInt cs = .ok (n : Int) := by
  have hd := digitsVal_isDigit h
  cases cs with
  | nil => exact absurd rfl (digitsVal_ne_nil h)
  | cons c rest =>
    have hc : c.isDigit := hd c (List.mem_cons_self c rest)
    have h1 : c ≠ '-' := by intro e; rw [e] at hc; exact absurd hc (by decide)
    have h2 : c ≠ '+' := by intro e; rw [e] at hc; exact absurd hc (by decide)
    unfold pyInt
    rw [pyIntCore_cons, if_neg h1, if_neg h2, h]
    rfl

lemma pyDate_ok {y m d : Nat} (hy1 : 1 ≤ y) (hy2 : y ≤ 9999) (hm1 : 1 ≤ m)
    (hm2 : m ≤ 12) (hd1 : 1 ≤ d) (hd2 : d ≤ daysInMonth y m) :
    pyDate (y : Int) m d = .ok ⟨y, m, d⟩ := by
  unfold pyDate
  rw [if_neg (by omega), if_neg (by omega),
    if_neg (by simp only [Int.toNat_natCast]; omega)]
  simp

lemma takeWhile_idem (p : Char → Bool) (l : List Char) :
    (l.takeWhile p).takeWhile p = l.takeWhile p := by
  induction l with
  | nil => rfl
  | cons c rest ih =>
    by_cases h : p c <;> simp [List.takeWhile, h, ih]

example : rootfi_period_to_dates ("Q1-2024") =
    .ok (⟨2024, 1, 1⟩, ⟨2024, 3, 31⟩) := by decide

example : rootfi_period_to_dates ("2024-02-01/2024-02-28") =
    .ok (⟨2024, 2, 1⟩, ⟨2024, 2, 28⟩) := by decide

example : rootfi_period_to_dates ("Q5-2024") = .error (.keyError 5) := by decide

example : _parse_date ("2024-01-01Tnot-a-time") = .ok ⟨2024, 1, 1⟩ := by decide

/-! ### Claim theorems -/

/-- C7: the dispatcher selects an adapter by a case-insensitive substring
test on the filename in fixed priority order — any filename containing
`qb` (even one also containing `rootfi`) routes to the qb loader, otherwise
`rootfi` routes to the rootfi loader, and a filename with neither token
fails with the `Unsupported dataset format` error naming that filename. -/
theorem C7_dispatcher_priority (name : String) :
    (strContains (pyLower name) "qb" = true → select_adapter name = .ok .qb) ∧
    (strContains (pyLower name) "qb" = false →
      strContains (pyLower name) "rootfi" = true →
      select_adapter name = .ok .rootfi) ∧
    (strContains (pyLower name) "qb" = false →
      strContains (pyLower name) "rootfi" = false →
      select_adapter name =
        .error (.valueError ("Unsupported dataset format: " ++ name))) := by
  refine ⟨fun h => ?_, fun h1 h2 => ?_, fun h1 h2 => ?_⟩
  · simp [select_adapter, h]
  · simp [select_adapter, h1, h2]
  · simp [select_adapter, h1, h2]

/-- Witness for C7 at a filename containing both tokens (routes to qb), at
a rootfi-only filename and at a filename with neither token. -/
theorem C7_dispatcher_priority_witness :
    (strContains (pyLower ("QB_rootfi.json")) "qb" = true ∧
      select_adapter ("QB_rootfi.json") = .ok .qb) ∧
    (strContains (pyLower ("Rootfi_data.json")) "qb" = false ∧
      strContains (pyLower ("Rootfi_data.json")) "rootfi" = true ∧
      select_adapter ("Rootfi_data.json") = .ok .rootfi) ∧
    (strContains (pyLower ("data.json")) "qb" = false ∧
      strContains (pyLower ("data.json")) "rootfi" = false ∧
      select_adapter ("data.json") =
        .error (.valueError ("Unsupported dataset format: data.json"))) :=
  ⟨⟨by decide, (C7_dispatcher_priority ("QB_rootfi.json")).1 (by decide)⟩,
   ⟨by decide, by decide,
     (C7_dispatcher_priority ("Rootfi_data.json")).2.1 (by decide) (by decide)⟩,
   ⟨by decide, by decide,
     (C7_dispatcher_priority ("data.json")).2.2 (by decide) (by decide)⟩⟩

/-- C2 (evaluation at the failing input): the schema of src/app/models.py
declares no uniqueness constraint beyond the auto-increment primary key, so
re-adding an identical record raises no `IntegrityError`: the second
`add_records` call with the same one-record list returns 1 (not 0) and the
store ends up holding the record twice. -/
theorem C2_add_records_readds_duplicates :
    (add_records emptyDB [sampleRecord]).2 = 1 ∧
    (add_records (add_records emptyDB [sampleRecord]).1 [sampleRecord]).2 = 1 ∧
    (add_records (add_records emptyDB [sampleRecord]).1 [sampleRecord]).1.rows.map
        StoredRecord.payload = [sampleRecord, sampleRecord] := by
  refine ⟨rfl, rfl, rfl⟩

/-- C10: `_parse_date` depends only on the portion of its input before the
first `T`; the suffix after `T` is discarded without any validation, so a
date carrying arbitrary text after `T` is accepted and resolves to the
prefix date. -/
theorem C10_parse_date_ignores_after_T (s : String)
    (h : s.data.contains 'T' = true) :
    _parse_date s =
      _parse_date (String.mk (s.data.takeWhile (fun c => c ≠ 'T'))) ∧
    _parse_date ("2024-01-01Tnot-a-time") = .ok ⟨2024, 1, 1⟩ := by
  constructor
  · unfold _parse_date parseDateChars
    exact congrArg fromisoformatDate (takeWhile_idem _ s.data).symm
  · decide

/-- Witness for C10 at a date string whose `T`-suffix is not a valid time. -/
theorem C10_parse_date_ignores_after_T_witness :
    ("2024-01-01Tnot-a-time".data.contains 'T' = true) ∧
    _parse_date ("2024-01-01Tnot-a-time") =
      _parse_date (String.mk
        ("2024-01-01Tnot-a-time".data.takeWhile (fun c => c ≠ 'T'))) :=
  ⟨by decide, (C10_parse_date_ignores_after_T ("2024-01-01Tnot-a-time") (by decide)).1⟩

lemma _load_qb_length (ds : String) (rows : List QbRow)
    (recs : List FinancialRecord) (h : _load_qb ds rows = .ok recs) :
    recs.length = 2 * rows.length := by
  induction rows generalizing recs with
  | nil =>
    simp only [_load_qb] at h
    cases h
    rfl
  | cons row rest ih =>
    simp only [_load_qb] at h
    cases hp : _parse_date row.date with
    | error e => rw [hp] at h; exact absurd h (by simp)
    | ok d =>
      rw [hp] at h
      cases hl : _load_qb ds rest with
      | error e => rw [hl] at h; exact absurd h (by simp)
      | ok recs2 =>
        rw [hl] at h
        simp only [Except.ok.injEq] at h
        subst h
        simp only [List.length_cons, ih recs2 hl]
        omega

/-- C3: every qb row expands into exactly two canonical records — one
`metric="revenue"` with the row's `revenue` amount (0 when absent), one
`metric="expense"` with the row's `expenses` amount (0 when absent) — both
with `period_start = period_end =` the row's date, currency defaulting to
`USD`, and `raw_source_id` copied from the row's `id`; in general a
successful qb load yields exactly twice as many records as rows. -/
theorem C3_qb_adapter_row (ds : String) (row : QbRow) (d : PyDate)
    (h : _parse_date row.date = .ok d) :
    _load_qb ds [row] = .ok
      [{ dataset_id := ds, period_start := d, period_end := d,
         metric := "revenue", amount := row.revenue.getD 0,
         currency := row.currency.getD ("USD"), category := none,
         sub_category := none, raw_source_id := row.id },
       { dataset_id := ds, period_start := d, period_end := d,
         metric := "expense", amount := row.expenses.getD 0,
         currency := row.currency.getD ("USD"), category := none,
         sub_category := none, raw_source_id := row.id }] ∧
    (∀ rows recs, _load_qb ds rows = .ok recs →
      recs.length = 2 * rows.length) := by
  constructor
  · simp [_load_qb, h]
  · exact fun rows recs hr => _load_qb_length ds rows recs hr

/-- Witness for C3 at the spec's example row and at a row with all optional
keys absent (amount defaults to 0, currency to USD). -/
theorem C3_qb_adapter_row_witness :
    (_parse_date c3Row.date = .ok ⟨2024, 1, 1⟩ ∧
      _load_qb ("qb") [c3Row] = .ok
        [{ dataset_id := "qb", period_start := ⟨2024, 1, 1⟩,
           period_end := ⟨2024, 1, 1⟩, metric := "revenue", amount := 100,
           currency := "USD", category := none, sub_category := none,
           raw_source_id := some ("r1") },
         { dataset_id := "qb", period_start := ⟨2024, 1, 1⟩,
           period_end := ⟨2024, 1, 1⟩, metric := "expense", amount := 40,
           currency := "USD", category := none, sub_category := none,
           raw_source_id := some ("r1") }]) ∧
    (_load_qb ("qb") [c3RowBare] = .ok
        [{ dataset_id := "qb", period_start := ⟨2024, 1, 1⟩,
           period_end := ⟨2024, 1, 1⟩, metric := "revenue", amount := 0,
           currency := "USD", category := none, sub_category := none,
           raw_source_id := none },
         { dataset_id := "qb", period_start := ⟨2024, 1, 1⟩,
           period_end := ⟨2024, 1, 1⟩, metric := "expense", amount := 0,
           currency := "USD", category := none, sub_category := none,
           raw_source_id := none }]) :=
  ⟨⟨by decide, (C3_qb_adapter_row ("qb") c3Row ⟨2024, 1, 1⟩ (by decide)).1⟩,
   (C3_qb_adapter_row ("qb") c3RowBare ⟨2024, 1, 1⟩ (by decide)).1⟩

lemma _load_rootfi_length (ds : String) (rows : List RootfiRow)
    (recs : List FinancialRecord) (h : _load_rootfi ds rows = .ok recs) :
    recs.length = rows.length := by
  induction rows generalizing recs with
  | nil =>
    simp only [_load_rootfi] at h
    cases h
    rfl
  | cons row rest ih =>
    simp only [_load_rootfi] at h
    cases hp : rootfi_period_to_dates row.period with
    | error e => rw [hp] at h; exact absurd h (by simp)
    | ok se =>
      rw [hp] at h
      cases hl : _load_rootfi ds rest with
      | error e => rw [hl] at h; exact absurd h (by simp)
      | ok recs2 =>
        rw [hl] at h
        simp only [Except.ok.injEq] at h
        subst h
        simp only [List.length_cons, ih recs2 hl]

/-- C8: every rootfi row expands into exactly one canonical record whose
metric is the lowercased `type`, amount the row's `value`, period the
resolution of the row's `period` expression, and `raw_source_id` the row's
`uid`; in general a successful rootfi load yields exactly one record per
row. -/
theorem C8_rootfi_adapter_row (ds : String) (row : RootfiRow)
    (s e : PyDate) (h : rootfi_period_to_dates row.period = .ok (s, e)) :
    _load_rootfi ds [row] = .ok
      [{ dataset_id := ds, period_start := s, period_end := e,
         metric := pyLower row.type, amount := row.value,
         currency := row.currency.getD ("USD"), category := row.category,
         sub_category := row.sub_category, raw_source_id := row.uid }] ∧
    (∀ rows recs, _load_rootfi ds rows = .ok recs →
      recs.length = rows.length) := by
  constructor
  · simp [_load_rootfi, h]
  · exact fun rows recs hr => _load_rootfi_length ds rows recs hr

/-- Witness for C8 at the spec's example row `{"period":"Q1-2024",
"type":"Profit","value":999,"uid":"u1"}`. -/
theorem C8_rootfi_adapter_row_witness :
    rootfi_period_to_dates c8Row.period = .ok (⟨2024, 1, 1⟩, ⟨2024, 3, 31⟩) ∧
    _load_rootfi ("rootfi") [c8Row] = .ok
      [{ dataset_id := "rootfi", period_start := ⟨2024, 1, 1⟩,
         period_end := ⟨2024, 3, 31⟩, metric := "profit", amount := 999,
         currency := "USD", category := none, sub_category := none,
         raw_source_id := some ("u1") }] :=
  ⟨by decide,
   (C8_rootfi_adapter_row ("rootfi") c8Row ⟨2024, 1, 1⟩ ⟨2024, 3, 31⟩ (by decide)).1⟩

lemma pyLower_ne_empty {s : String} (h : s ≠ "") : pyLower s ≠ "" := by
  intro e
  apply h
  have hd : s.data.map Char.toLower = ([] : List Char) := congrArg String.data e
  exact string_eq_of_data (List.map_eq_nil_iff.mp hd)

lemma _load_qb_mem {ds : String} {rows : List QbRow}
    {recs : List FinancialRecord} (h : _load_qb ds rows = .ok recs) :
    ∀ r ∈ recs, (r.metric = "revenue" ∨ r.metric = "expense") ∧
      r.period_start = r.period_end := by
  induction rows generalizing recs with
  | nil =>
    simp only [_load_qb] at h
    cases h
    intro r hr
    exact absurd hr (List.not_mem_nil r)
  | cons row rest ih =>
    simp only [_load_qb] at h
    cases hp : _parse_date row.date with
    | error e => rw [hp] at h; exact absurd h (by simp)
    | ok d =>
      rw [hp] at h
      cases hl : _load_qb ds rest with
      | error e => rw [hl] at h; exact absurd h (by simp)
      | ok recs2 =>
        rw [hl] at h
        simp only [Except.ok.injEq] at h
        subst h
        intro r hr
        rcases List.mem_cons.mp hr with hr | hr
        · subst hr; exact ⟨Or.inl rfl, rfl⟩
        · rcases List.mem_cons.mp hr with hr | hr
          · subst hr; exact ⟨Or.inr rfl, rfl⟩
          · exact ih hl r hr

lemma _load_rootfi_mem {ds : String} {rows : List RootfiRow}
    {recs : List FinancialRecord} (h : _load_rootfi ds rows = .ok recs) :
    ∀ r ∈ recs, ∃ row ∈ rows, ∃ se : PyDate × PyDate,
      rootfi_period_to_dates row.period = .ok se ∧
      r.period_start = se.1 ∧ r.period_end = se.2 ∧
      r.metric = pyLower row.type := by
  induction rows generalizing recs with
  | nil =>
    simp only [_load_rootfi] at h
    cases h
    intro r hr
    exact absurd hr (List.not_mem_nil r)
  | cons row rest ih =>
    simp only [_load_rootfi] at h
    cases hp : rootfi_period_to_dates row.period with
    | error e => rw [hp] at h; exact absurd h (by simp)
    | ok se =>
      rw [hp] at h
      cases hl : _load_rootfi ds rest with
      | error e => rw [hl] at h; exact absurd h (by simp)
      | ok recs2 =>
        rw [hl] at h
        simp only [Except.ok.injEq] at h
        subst h
        intro r hr
        rcases List.mem_cons.mp hr with hr | hr
        · subst hr
          exact ⟨row, List.mem_cons_self row rest, se, hp, rfl, rfl, rfl⟩
        · obtain ⟨row2, hrow2, se2, h1, h2, h3, h4⟩ := ih hl r hr
          exact ⟨row2, List.mem_cons_of_mem row hrow2, se2, h1, h2, h3, h4⟩

/-- C6 fails on the code: the rootfi adapter copies the lowercased `type`
field into `metric` with no emptiness check, so the row
`{"period":"2024-01-01","type":"","value":0}` is accepted and produces a
record whose `metric` is the empty string. -/
theorem C6_counterexample :
    ¬ ((∀ (ds : String) (rows : List QbRow) (recs : List FinancialRecord),
          _load_qb ds rows = .ok recs → ∀ r ∈ recs, r.metric ≠ "") ∧
       (∀ (ds : String) (rows : List RootfiRow) (recs : List FinancialRecord),
          _load_rootfi ds rows = .ok recs → ∀ r ∈ recs, r.metric ≠ "")) := by
  intro ⟨_, hB⟩
  have hout : _load_rootfi ("ds") [c6Row] = .ok
      [{ dataset_id := "ds", period_start := ⟨2024, 1, 1⟩,
         period_end := ⟨2024, 1, 1⟩, metric := "", amount := 0,
         currency := "USD", category := none, sub_category := none,
         raw_source_id := none }] := by decide
  exact hB ("ds") [c6Row] _ hout _ (List.mem_singleton.mpr rfl) rfl

/-- C6 amended: every record produced by the qb adapter has a non-empty
metric (`"revenue"` or `"expense"`); a record produced by the rootfi
adapter has a non-empty metric provided the row's `type` field is
non-empty (the metric is exactly the lowercased `type`, which the adapter
does not validate). -/
theorem C6_metric_nonempty_amended :
    (∀ (ds : String) (rows : List QbRow) (recs : List FinancialRecord),
      _load_qb ds rows = .ok recs → ∀ r ∈ recs, r.metric ≠ "") ∧
    (∀ (ds : String) (rows : List RootfiRow) (recs : List FinancialRecord),
      _load_rootfi ds rows = .ok recs → (∀ row ∈ rows, row.type ≠ "") →
      ∀ r ∈ recs, r.metric ≠ "") := by
  constructor
  · intro ds rows recs h r hr
    rcases (_load_qb_mem h r hr).1 with hm | hm <;> rw [hm] <;> decide
  · intro ds rows recs h htypes r hr
    obtain ⟨row, hrow, _, _, _, _, hm⟩ := _load_rootfi_mem h r hr
    rw [hm]
    exact pyLower_ne_empty (htypes row hrow)

/-- Witness for the amended C6: the spec's Adapter-B example row has
`type = "Profit"`, so its record's metric `"profit"` is non-empty. -/
theorem C6_metric_nonempty_amended_witness :
    _load_rootfi ("rootfi") [c8Row] = .ok
      [{ dataset_id := "rootfi", period_start := ⟨2024, 1, 1⟩,
         period_end := ⟨2024, 3, 31⟩, metric := "profit", amount := 999,
         currency := "USD", category := none, sub_category := none,
         raw_source_id := some ("u1") }] ∧
    ({ dataset_id := "rootfi", period_start := ⟨2024, 1, 1⟩,
       period_end := ⟨2024, 3, 31⟩, metric := "profit", amount := 999,
       currency := "USD", category := none, sub_category := none,
       raw_source_id := some ("u1") } : FinancialRecord).metric ≠ "" :=
  ⟨by decide,
   C6_metric_nonempty_amended.2 ("rootfi") [c8Row] _ (by decide)
     (by decide) _ (List.mem_singleton.mpr rfl)⟩

lemma pyDate_ok_inv {y : Int} {m d : Nat} {r : PyDate}
    (h : pyDate y m d = .ok r) : r = ⟨y.toNat, m, d⟩ := by
  unfold pyDate at h
  split_ifs at h
  exact (Except.ok.inj h).symm

lemma quarterTable_months {q : Int} {m : Nat × Nat}
    (h : quarterTable q = some m) :
    m = (1, 3) ∨ m = (4, 6) ∨ m = (7, 9) ∨ m = (10, 12) := by
  unfold quarterTable at h
  split_ifs at h
  · exact Or.inl (Option.some.inj h).symm
  · exact Or.inr (Or.inl (Option.some.inj h).symm)
  · exact Or.inr (Or.inr (Or.inl (Option.some.inj h).symm))
  · exact Or.inr (Or.inr (Or.inr (Option.some.inj h).symm))

lemma rootfiQuarterCore_le {qc : Char} {yr : List Char} {s e : PyDate}
    (h : rootfiQuarterCore qc yr = .ok (s, e)) : s.le e := by
  unfold rootfiQuarterCore at h
  cases hq : pyInt [qc] with
  | error err => simp only [hq] at h; exact Except.noConfusion h
  | ok q =>
    simp only [hq] at h
    cases hm : quarterTable q with
    | none => simp only [hm] at h; exact Except.noConfusion h
    | some months =>
      simp only [hm] at h
      cases hy : pyInt yr with
      | error err => simp only [hy] at h; exact Except.noConfusion h
      | ok y =>
        simp only [hy] at h
        cases hs : pyDate y months.1 1 with
        | error err => simp only [hs] at h; exact Except.noConfusion h
        | ok st =>
          simp only [hs] at h
          cases he : pyDate y months.2 (quarter_end_day y months.2) with
          | error err => simp only [he] at h; exact Except.noConfusion h
          | ok en =>
            simp only [he, Except.ok.injEq, Prod.mk.injEq] at h
            obtain ⟨h1, h2⟩ := h
            subst h1
            subst h2
            have hst := pyDate_ok_inv hs
            have hen := pyDate_ok_inv he
            subst hst
            subst hen
            rcases quarterTable_months hm with hmm | hmm | hmm | hmm <;>
              subst hmm <;> exact Or.inr ⟨rfl, Or.inl (by norm_num)⟩

lemma rootfi_quarter_form_le {period : String} {s e : PyDate}
    (hQ : period.data.head? = some 'Q')
    (h : rootfi_period_to_dates period = .ok (s, e)) : s.le e := by
  unfold rootfi_period_to_dates at h
  cases hd : period.data with
  | nil => rw [hd] at hQ; exact absurd hQ (by simp)
  | cons c rest =>
    rw [hd] at hQ h
    have hc : c = 'Q' := by
      simp only [List.head?] at hQ
      exact Option.some.inj hQ
    subst hc
    have hif : (if ('Q' : Char) = 'Q' then rootfiPeriodQuarter ('Q' :: rest)
        else rootfiPeriodFallback ('Q' :: rest)) = .ok (s, e) := h
    rw [if_pos rfl] at hif
    clear h
    rename' hif => h
    cases rest with
    | nil => exact absurd h (by simp [rootfiPeriodQuarter])
    | cons qc rest2 =>
      have h2 : (match (pySplit '-' ('Q' :: qc :: rest2)).drop 1 with
          | [] => (Except.error (PyErr.indexError ("list index out of range")) :
              Except PyErr (PyDate × PyDate))
          | yr :: _ => rootfiQuarterCore qc yr) = .ok (s, e) := h
      cases hdrop : (pySplit '-' ('Q' :: qc :: rest2)).drop 1 with
      | nil => simp only [hdrop] at h2; exact Except.noConfusion h2
      | cons yr tail =>
        simp only [hdrop] at h2
        exact rootfiQuarterCore_le h2

/-- C5 fails on the code: a rootfi row whose range-form period is
descending (`2024-03-01/2024-01-01`) is accepted verbatim and produces a
record with `period_start > period_end`. -/
theorem C5_counterexample :
    ¬ ((∀ (ds : String) (rows : List QbRow) (recs : List FinancialRecord),
          _load_qb ds rows = .ok recs →
          ∀ r ∈ recs, r.period_start.le r.period_end) ∧
       (∀ (ds : String) (rows : List RootfiRow) (recs : List FinancialRecord),
          _load_rootfi ds rows = .ok recs →
          ∀ r ∈ recs, r.period_start.le r.period_end)) := by
  intro ⟨_, hB⟩
  have hout : _load_rootfi ("ds") [c5Row] = .ok
      [{ dataset_id := "ds", period_start := ⟨2024, 3, 1⟩,
         period_end := ⟨2024, 1, 1⟩, metric := "profit", amount := 1,
         currency := "USD", category := none, sub_category := none,
         raw_source_id := none }] := by decide
  have hle := hB ("ds") [c5Row] _ hout _ (List.mem_singleton.mpr rfl)
  exact absurd hle (by decide)

/-- C5 amended: every record produced by the qb adapter satisfies
`period_start <= period_end` (start and end coincide); a record produced by
the rootfi adapter satisfies it whenever its row's period expression
resolves with start not after end — which is guaranteed for quarter-form
periods, but not validated for range-form periods. -/
theorem C5_period_order_amended :
    (∀ (ds : String) (rows : List QbRow) (recs : List FinancialRecord),
      _load_qb ds rows = .ok recs →
      ∀ r ∈ recs, r.period_start.le r.period_end) ∧
    (∀ (ds : String) (rows : List RootfiRow) (recs : List FinancialRecord),
      _load_rootfi ds rows = .ok recs →
      (∀ row ∈ rows, ∀ s e, rootfi_period_to_dates row.period = .ok (s, e) →
        s.le e) →
      ∀ r ∈ recs, r.period_start.le r.period_end) ∧
    (∀ (period : String) (s e : PyDate), period.data.head? = some 'Q' →
      rootfi_period_to_dates period = .ok (s, e) → s.le e) := by
  refine ⟨?_, ?_, ?_⟩
  · intro ds rows recs h r hr
    rw [(_load_qb_mem h r hr).2]
    exact Or.inr ⟨rfl, Or.inr ⟨rfl, Nat.le_refl _⟩⟩
  · intro ds rows recs h hres r hr
    obtain ⟨row, hrow, se, h1, h2, h3, _⟩ := _load_rootfi_mem h r hr
    rw [h2, h3]
    exact hres row hrow se.1 se.2 h1
  · exact fun period s e hQ h => rootfi_quarter_form_le hQ h

/-- Witness for the amended C5: the spec's Adapter-B quarter-form example
row resolves with start before end. -/
theorem C5_period_order_amended_witness :
    _load_rootfi ("rootfi") [c8Row] = .ok [c8Rec] ∧
    PyDate.le ⟨2024, 1, 1⟩ ⟨2024, 3, 31⟩ :=
  ⟨by decide,
   C5_period_order_amended.2.1 ("rootfi") [c8Row] [c8Rec] (by decide)
     (by
       intro row hrow s e hres
       rw [List.mem_singleton] at hrow
       subst hrow
       exact C5_period_order_amended.2.2 c8Row.period s e (by decide) hres)
     c8Rec (List.mem_singleton.mpr rfl)⟩

lemma fromiso_ok_head {cs : List Char} {d : PyDate}
    (h : fromisoformatDate cs = .ok d) :
    ∃ c rest, cs = c :: rest ∧ c.isDigit := by
  unfold fromisoformatDate at h
  split at h
  next y1 y2 y3 y4 m1 m2 dd1 dd2 =>
    split_ifs at h with hdig
    exact ⟨y1, _, rfl, hdig.1⟩
  next => exact absurd h (by simp)

lemma takeWhile_eq_cons {p : Char → Bool} {l rest : List Char} {c : Char}
    (h : l.takeWhile p = c :: rest) : ∃ t, l = c :: t := by
  cases l with
  | nil => exact absurd h (by simp)
  | cons x t =>
    by_cases hx : p x
    · simp only [List.takeWhile, hx] at h
      exact ⟨t, by rw [(List.cons.inj h).1]⟩
    · simp only [List.takeWhile, hx] at h
      exact absurd h (by simp)

lemma parse_ok_head_digit {s : String} {d : PyDate}
    (h : _parse_date s = .ok d) :
    ∃ c rest, s.data = c :: rest ∧ c.isDigit := by
  unfold _parse_date parseDateChars at h
  obtain ⟨c, rest, hcs, hdig⟩ := fromiso_ok_head h
  obtain ⟨t, ht⟩ := takeWhile_eq_cons hcs
  exact ⟨c, t, ht, hdig⟩

lemma rootfi_period_fallback_eq {period : String}
    (h : ∀ c rest, period.data = c :: rest → c ≠ 'Q') :
    rootfi_period_to_dates period = rootfiPeriodFallback period.data := by
  unfold rootfi_period_to_dates
  cases hd : period.data with
  | nil => rfl
  | cons c rest =>
    show (if c = 'Q' then rootfiPeriodQuarter (c :: rest)
        else rootfiPeriodFallback (c :: rest)) = rootfiPeriodFallback (c :: rest)
    rw [if_neg (h c rest hd)]

lemma rootfiPeriodFallback_range {l1 l2 : List Char} {a b : PyDate}
    (h1 : ('/' : Char) ∉ l1) (h2 : ('/' : Char) ∉ l2)
    (hp1 : parseDateChars l1 = .ok a) (hp2 : parseDateChars l2 = .ok b) :
    rootfiPeriodFallback (l1 ++ '/' :: l2) = .ok (a, b) := by
  have hmem : listContainsSub ['/'] (l1 ++ '/' :: l2) = true := by
    rw [listContainsSub_singleton]
    have hm : ('/' : Char) ∈ l1 ++ '/' :: l2 :=
      List.mem_append_right _ (List.mem_cons_self _ _)
    simpa using hm
  unfold rootfiPeriodFallback
  rw [if_pos hmem, pySplit_append l2 h1, pySplit_of_not_mem h2]
  simp only [hp1, hp2]

/-- C9: for every range-form period expression `<date>/<date>` whose two
halves parse as dates (any `T`-suffix discarded), the resolver returns
exactly (left date, right date) with no validation that left <= right — the
result is returned verbatim even when the left date is after the right
date. -/
theorem C9_range_form (d1 d2 : String) (a b : PyDate)
    (hs1 : ('/' : Char) ∉ d1.data) (hs2 : ('/' : Char) ∉ d2.data)
    (hp1 : _parse_date d1 = .ok a) (hp2 : _parse_date d2 = .ok b) :
    rootfi_period_to_dates (d1 ++ "/" ++ d2) = .ok (a, b) := by
  have hdata : (d1 ++ "/" ++ d2).data = d1.data ++ '/' :: d2.data := by
    rw [String.data_append, String.data_append]
    simp
  have hnotQ : ∀ c rest, (d1 ++ "/" ++ d2).data = c :: rest → c ≠ 'Q' := by
    intro c rest hc
    rw [hdata] at hc
    obtain ⟨c1, r1, hd1, hdig⟩ := parse_ok_head_digit hp1
    rw [hd1] at hc
    have : c = c1 := (List.cons.inj hc).1.symm
    subst this
    intro e
    rw [e] at hdig
    exact absurd hdig (by decide)
  rw [rootfi_period_fallback_eq hnotQ, hdata]
  exact rootfiPeriodFallback_range hs1 hs2 hp1 hp2

/-- Witness for C9 at a descending range: the left date is after the right
date and the pair is still returned verbatim. -/
theorem C9_range_form_witness :
    _parse_date ("2024-02-28") = .ok ⟨2024, 2, 28⟩ ∧
    _parse_date ("2024-02-01") = .ok ⟨2024, 2, 1⟩ ∧
    rootfi_period_to_dates ("2024-02-28" ++ "/" ++ "2024-02-01") =
      .ok (⟨2024, 2, 28⟩, ⟨2024, 2, 1⟩) :=
  ⟨by decide, by decide,
   C9_range_form ("2024-02-28") "2024-02-01" ⟨2024, 2, 28⟩ ⟨2024, 2, 1⟩
     (by decide) (by decide) (by decide) (by decide)⟩

lemma valueError_ne_unsupported {msg : String} (h : msg.data.head? ≠ some 'U')
    (f : String) :
    PyErr.valueError msg ≠ .valueError ("Unsupported dataset format: " ++ f) := by
  intro e
  apply h
  have hm : msg = "Unsupported dataset format: " ++ f := PyErr.valueError.inj e
  rw [hm, String.data_append]
  rfl



lemma quarter_split_eq {qc : Char} {ys : List Char} (h1 : qc ≠ '-')
    (h2 : ('-' : Char) ∉ ys) :
    rootfiPeriodQuarter ('Q' :: qc :: '-' :: ys) = rootfiQuarterCore qc ys := by
  have hno : ('-' : Char) ∉ ['Q', qc] := by
    intro hm
    rcases List.mem_cons.mp hm with e | hm2
    · exact absurd e.symm (by decide)
    · rcases List.mem_cons.mp hm2 with e | hm3
      · exact h1 e.symm
      · exact absurd hm3 (List.not_mem_nil _)
  have hsplit : pySplit '-' ('Q' :: qc :: '-' :: ys) = [['Q', qc], ys] := by
    have heq : ('Q' :: qc :: '-' :: ys) = ['Q', qc] ++ '-' :: ys := rfl
    rw [heq, pySplit_append ys hno, pySplit_of_not_mem h2]
  show (match (pySplit '-' ('Q' :: qc :: '-' :: ys)).drop 1 with
      | [] => (Except.error (PyErr.indexError ("list index out of range")) :
          Except PyErr (PyDate × PyDate))
      | yr :: _ => rootfiQuarterCore qc yr) = rootfiQuarterCore qc ys
  rw [hsplit]
  rfl

lemma digitsVal_singleton {c : Char} (h : c.isDigit) :
    digitsVal [c] = some (c.toNat - 48) := by
  simp [digitsVal, h]

lemma daysInMonth_ge_one (y m : Nat) : 1 ≤ daysInMonth y m := by
  unfold daysInMonth
  split_ifs <;> omega

lemma rootfiQuarterCore_eval {qc : Char} {ys : List Char} {q y : Nat}
    (hqd : qc.isDigit) (hqv : qc.toNat - 48 = q)
    (hys : digitsVal ys = some y) (hy1 : 1 ≤ y) (hy2 : y ≤ 9999)
    (hq1 : 1 ≤ q) (hq4 : q ≤ 4) :
    rootfiQuarterCore qc ys =
      .ok (⟨y, 3 * q - 2, 1⟩,
           ⟨y, 3 * q, if q = 1 ∨ q = 4 then 31 else 30⟩) := by
  have hq_int : pyInt [qc] = .ok ((q : Nat) : Int) := by
    have hd := digitsVal_singleton hqd
    rw [hqv] at hd
    exact pyInt_of_digitsVal hd
  have hy_int : pyInt ys = .ok ((y : Nat) : Int) := pyInt_of_digitsVal hys
  have hqt : quarterTable ((q : Nat) : Int) = some (3 * q - 2, 3 * q) := by
    interval_cases q <;> rfl
  have hday : quarter_end_day ((y : Nat) : Int) (3 * q) =
      (if q = 1 ∨ q = 4 then 31 else 30) := by
    interval_cases q <;> rfl
  have hstart : pyDate ((y : Nat) : Int) (3 * q - 2) 1 =
      .ok ⟨y, 3 * q - 2, 1⟩ :=
    pyDate_ok hy1 hy2 (by omega) (by omega) (by omega)
      (daysInMonth_ge_one y (3 * q - 2))
  have hend : pyDate ((y : Nat) : Int) (3 * q)
      (if q = 1 ∨ q = 4 then 31 else 30) =
      .ok ⟨y, 3 * q, if q = 1 ∨ q = 4 then 31 else 30⟩ :=
    pyDate_ok hy1 hy2 (by omega) (by omega)
      (by split_ifs <;> omega)
      (by interval_cases q <;> norm_num [daysInMonth])
  unfold rootfiQuarterCore
  simp only [hq_int, hqt, hy_int, hday, hstart, hend]

lemma rootfi_quarter_string (qc : Char) (q y : Nat) (yr : String)
    (hqd : qc.isDigit) (hqv : qc.toNat - 48 = q)
    (hq1 : 1 ≤ q) (hq4 : q ≤ 4)
    (hyr : digitsVal yr.data = some y) (hy1 : 1 ≤ y) (hy2 : y ≤ 9999)
    (s : String) (hdata : s.data = 'Q' :: qc :: '-' :: yr.data) :
    rootfi_period_to_dates s =
      .ok (⟨y, 3 * q - 2, 1⟩,
           ⟨y, 3 * q, if q = 1 ∨ q = 4 then 31 else 30⟩) := by
  have hnd : ('-' : Char) ∉ yr.data :=
    fun hm => absurd (digitsVal_isDigit hyr _ hm) (by decide)
  have hqc : qc ≠ '-' := fun e => absurd (e ▸ hqd) (by decide)
  unfold rootfi_period_to_dates
  rw [hdata]
  show (if ('Q' : Char) = 'Q' then
      rootfiPeriodQuarter ('Q' :: qc :: '-' :: yr.data)
    else rootfiPeriodFallback ('Q' :: qc :: '-' :: yr.data)) = _
  rw [if_pos rfl, quarter_split_eq hqc hnd]
  exact rootfiQuarterCore_eval hqd hqv hyr hy1 hy2 hq1 hq4

/-- C1: every valid quarter expression `Q<n>-<YYYY>` (n in 1..4, the year a
digit string of value 1..9999) resolves to (first day of the quarter's
first month, last day of the quarter's last month) according to the fixed
table mapping n to months (3n-2, 3n), with start day always 1 and end day
the true month length; the embedded February-end computation yields 29
exactly under the Gregorian leap rule; and in particular `Q1-2024` resolves
to (2024-01-01, 2024-03-31). -/
theorem C1_quarter_resolution (n y : Nat) (yr : String)
    (hn1 : 1 ≤ n) (hn4 : n ≤ 4) (hyr : digitsVal yr.data = some y)
    (hy1 : 1 ≤ y) (hy2 : y ≤ 9999) :
    rootfi_period_to_dates ("Q" ++ toString n ++ "-" ++ yr) =
      .ok (⟨y, 3 * n - 2, 1⟩,
           ⟨y, 3 * n, if n = 1 ∨ n = 4 then 31 else 30⟩) ∧
    (∀ z : Int, quarter_end_day z 2 = 29 ↔
      (z % 4 = 0 ∧ (z % 100 ≠ 0 ∨ z % 400 = 0))) ∧
    rootfi_period_to_dates ("Q1-2024") = .ok (⟨2024, 1, 1⟩, ⟨2024, 3, 31⟩) := by
  refine ⟨?_, ?_, by decide⟩
  · interval_cases n
    · exact rootfi_quarter_string '1' 1 y yr (by decide) (by decide)
        (by decide) (by decide) hyr hy1 hy2 _ (by cases yr; rfl)
    · exact rootfi_quarter_string '2' 2 y yr (by decide) (by decide)
        (by decide) (by decide) hyr hy1 hy2 _ (by cases yr; rfl)
    · exact rootfi_quarter_string '3' 3 y yr (by decide) (by decide)
        (by decide) (by decide) hyr hy1 hy2 _ (by cases yr; rfl)
    · exact rootfi_quarter_string '4' 4 y yr (by decide) (by decide)
        (by decide) (by decide) hyr hy1 hy2 _ (by cases yr; rfl)
  · intro z
    unfold quarter_end_day
    rw [if_neg (by norm_num), if_pos rfl]
    split_ifs with hz
    · exact ⟨fun _ => hz, fun _ => rfl⟩
    · exact ⟨fun h28 => absurd h28 (by norm_num), fun hc => absurd hc hz⟩

/-- Witness for C1 at `Q1-2024` (leap year) and `Q2-2023`. -/
theorem C1_quarter_resolution_witness :
    (digitsVal ("2024").data = some 2024 ∧
      rootfi_period_to_dates ("Q" ++ toString 1 ++ "-" ++ "2024") =
        .ok (⟨2024, 3 * 1 - 2, 1⟩,
             ⟨2024, 3 * 1, if 1 = 1 ∨ 1 = 4 then 31 else 30⟩)) ∧
    (digitsVal ("2023").data = some 2023 ∧
      rootfi_period_to_dates ("Q" ++ toString 2 ++ "-" ++ "2023") =
        .ok (⟨2023, 3 * 2 - 2, 1⟩,
             ⟨2023, 3 * 2, if 2 = 1 ∨ 2 = 4 then 31 else 30⟩)) :=
  ⟨⟨by decide,
    (C1_quarter_resolution 1 2024 ("2024") (by decide) (by decide) (by decide)
      (by decide) (by decide)).1⟩,
   ⟨by decide,
    (C1_quarter_resolution 2 2023 ("2023") (by decide) (by decide) (by decide)
      (by decide) (by decide)).1⟩⟩

lemma quarter_split_eq_tail {qc : Char} {tail ys : List Char} (h0 : qc ≠ '-')
    (h1 : ('-' : Char) ∉ tail) (h2 : ('-' : Char) ∉ ys) :
    rootfiPeriodQuarter ('Q' :: qc :: (tail ++ '-' :: ys)) =
      rootfiQuarterCore qc ys := by
  have hno : ('-' : Char) ∉ ('Q' :: qc :: tail) := by
    intro hm
    rcases List.mem_cons.mp hm with e | hm2
    · exact absurd e.symm (by decide)
    · rcases List.mem_cons.mp hm2 with e | hm3
      · exact h0 e.symm
      · exact h1 hm3
  have hsplit : pySplit '-' ('Q' :: qc :: (tail ++ '-' :: ys)) =
      ('Q' :: qc :: tail) :: [ys] := by
    have heq : ('Q' :: qc :: (tail ++ '-' :: ys)) =
        ('Q' :: qc :: tail) ++ '-' :: ys := rfl
    rw [heq, pySplit_append ys hno, pySplit_of_not_mem h2]
  show (match (pySplit '-' ('Q' :: qc :: (tail ++ '-' :: ys))).drop 1 with
      | [] => (Except.error (PyErr.indexError ("list index out of range")) :
          Except PyErr (PyDate × PyDate))
      | yr :: _ => rootfiQuarterCore qc yr) = rootfiQuarterCore qc ys
  rw [hsplit]
  rfl

lemma rootfi_quarter_tail_resolve (qc : Char) (tail yr s : String)
    (hqd : qc.isDigit) (htail : ('-' : Char) ∉ tail.data)
    (hyr : ('-' : Char) ∉ yr.data)
    (hdata : s.data = 'Q' :: qc :: (tail.data ++ '-' :: yr.data)) :
    rootfi_period_to_dates s = rootfiQuarterCore qc yr.data := by
  unfold rootfi_period_to_dates
  rw [hdata]
  show (if ('Q' : Char) = 'Q' then
      rootfiPeriodQuarter ('Q' :: qc :: (tail.data ++ '-' :: yr.data))
    else rootfiPeriodFallback ('Q' :: qc :: (tail.data ++ '-' :: yr.data))) = _
  rw [if_pos rfl]
  exact quarter_split_eq_tail (fun e => absurd (e ▸ hqd) (by decide)) htail hyr

lemma rootfiQuarterCore_keyError {qc : Char} (ys : List Char) {n : Nat}
    (hqd : qc.isDigit) (hqv : qc.toNat - 48 = n)
    (h9 : n ≤ 9) (hn : ¬(1 ≤ n ∧ n ≤ 4)) :
    rootfiQuarterCore qc ys = .error (.keyError (n : Int)) := by
  have hq_int : pyInt [qc] = .ok ((n : Nat) : Int) := by
    have hd := digitsVal_singleton hqd
    rw [hqv] at hd
    exact pyInt_of_digitsVal hd
  have hqt : quarterTable ((n : Nat) : Int) = none := by
    interval_cases n <;> first | omega | rfl
  unfold rootfiQuarterCore
  simp only [hq_int, hqt]

/-- C4 fails on the code as stated: the resolver reads only the single
character after `Q` as the quarter number, so the malformed quarter numbers
12 and 1.5 (neither in 1..4) do not fail — `Q12-2024` and `Q1.5-2024`
resolve successfully to Q1's range — and `Q59-2024` fails with `KeyError 5`
(the first digit), not an error naming the quarter number 59. -/
theorem C4_counterexample :
    ¬(1 ≤ 12 ∧ 12 ≤ 4) ∧
    rootfi_period_to_dates ("Q12-2024") = .ok (⟨2024, 1, 1⟩, ⟨2024, 3, 31⟩) ∧
    rootfi_period_to_dates ("Q1.5-2024") = .ok (⟨2024, 1, 1⟩, ⟨2024, 3, 31⟩) ∧
    rootfi_period_to_dates ("Q59-2024") = .error (.keyError 5) := by
  refine ⟨by decide, by decide, by decide, by decide⟩

/-- C4 amended: the resolver judges the quarter number by the single
character after `Q` alone — when that character is a digit outside 1..4
the expression fails with a `KeyError` naming that digit, whatever
dash-free text follows, while a first digit in 1..4 resolves to that
quarter's range regardless of the extra characters; a malformed date
string or empty input fails with a `ValueError`; and each of these
resolver errors is distinct from the `Unsupported dataset format`
ValueError raised by the dispatcher (for any filename), which is moreover
the only error the dispatcher can raise. -/
theorem C4_malformed_period_errors_amended (n : Nat) (f : String)
    (h9 : n ≤ 9) (hn : ¬(1 ≤ n ∧ n ≤ 4)) :
    (∀ (qc : Char) (tail yr s : String), qc.isDigit → qc.toNat - 48 = n →
      ('-' : Char) ∉ tail.data → ('-' : Char) ∉ yr.data →
      s.data = 'Q' :: qc :: (tail.data ++ '-' :: yr.data) →
      rootfi_period_to_dates s = .error (.keyError (n : Int))) ∧
    (∀ (qc : Char) (q y : Nat) (tail yr s : String), qc.isDigit →
      qc.toNat - 48 = q → 1 ≤ q → q ≤ 4 →
      ('-' : Char) ∉ tail.data → digitsVal yr.data = some y →
      1 ≤ y → y ≤ 9999 →
      s.data = 'Q' :: qc :: (tail.data ++ '-' :: yr.data) →
      rootfi_period_to_dates s =
        .ok (⟨y, 3 * q - 2, 1⟩,
             ⟨y, 3 * q, if q = 1 ∨ q = 4 then 31 else 30⟩)) ∧
    (rootfi_period_to_dates ("2024-13-01") =
        .error (.valueError ("month must be in 1..12")) ∧
      rootfi_period_to_dates ("") =
        .error (.valueError ("Invalid isoformat string: "))) ∧
    ((PyErr.keyError (n : Int)) ≠
        .valueError ("Unsupported dataset format: " ++ f) ∧
      (PyErr.valueError ("month must be in 1..12")) ≠
        .valueError ("Unsupported dataset format: " ++ f) ∧
      (PyErr.valueError ("Invalid isoformat string: ")) ≠
        .valueError ("Unsupported dataset format: " ++ f)) ∧
    (∀ g : String, select_adapter g = .ok .qb ∨ select_adapter g = .ok .rootfi ∨
      select_adapter g =
        .error (.valueError ("Unsupported dataset format: " ++ g))) := by
  refine ⟨?_, ?_, ⟨by decide, by decide⟩,
    ⟨by simp, valueError_ne_unsupported (by decide) f,
      valueError_ne_unsupported (by decide) f⟩, ?_⟩
  · intro qc tail yr s hqd hqv htail hyr hdata
    rw [rootfi_quarter_tail_resolve qc tail yr s hqd htail hyr hdata]
    exact rootfiQuarterCore_keyError yr.data hqd hqv h9 hn
  · intro qc q y tail yr s hqd hqv hq1 hq4 htail hyrv hy1 hy2 hdata
    have hyr : ('-' : Char) ∉ yr.data :=
      fun hm => absurd (digitsVal_isDigit hyrv _ hm) (by decide)
    rw [rootfi_quarter_tail_resolve qc tail yr s hqd htail hyr hdata]
    exact rootfiQuarterCore_eval hqd hqv hyrv hy1 hy2 hq1 hq4
  · intro g
    unfold select_adapter
    split_ifs <;> simp

/-- Witness for the amended C4: `Q59-2024` fails with `KeyError 5` (the
first digit), while `Q12-2024` — quarter number 12 — resolves by its first
digit alone to Q1's range. -/
theorem C4_malformed_period_errors_amended_witness :
    rootfi_period_to_dates ("Q59-2024") = .error (.keyError 5) ∧
    rootfi_period_to_dates ("Q12-2024") = .ok (⟨2024, 1, 1⟩, ⟨2024, 3, 31⟩) :=
  ⟨(C4_malformed_period_errors_amended 5 ("data.json") (by decide)
      (by decide)).1 '5' ("9") ("2024") ("Q59-2024") (by decide) (by decide)
      (by decide) (by decide) (by decide),
   (C4_malformed_period_errors_amended 5 ("data.json") (by decide)
      (by decide)).2.1 '1' 1 2024 ("2") ("2024") ("Q12-2024") (by decide)
      (by decide) (by decide) (by decide) (by decide) (by decide) (by decide)
      (by decide) (by decide)⟩
